import Mathlib

/-!
Verification of the `ecto_libsql` native layer against its specification.

The repository's `src/` holds `constants.rs` (global registries, the Tokio
runtime, the default sync timeout, NIF atoms) and `tests.rs` (unit tests for
`detect_query_type` and `should_use_query`, plus registry tests).  The
classifier and the registry operations themselves are declared in modules not
present under `src/`; where needed they are modelled from the specification,
with a doc comment saying so.  Machine integers are modelled as `Nat`.
-/

namespace EctoLibSql

/-! ## SQL classifier: character classes -/

/-- Modelled from the spec: SQL whitespace is space, tab, newline, carriage
return (spec section 4.1, and `tests.rs` whitespace tests). -/
def isSqlWs (c : Char) : Bool :=
  c = ' ' || c = '\t' || c = '\n' || c = '\r'

/-- Modelled from the spec: an identifier character is a letter, a digit or an
underscore; anything else (including quote characters) is a word boundary. -/
def isIdentChar (c : Char) : Bool :=
  c.isAlpha || c.isDigit || c = '_'

/-- Modelled from the spec: drop the leading SQL whitespace of a character
list. -/
def skipWs : List Char → List Char
  | [] => []
  | c :: cs => if isSqlWs c then skipWs cs else c :: cs

/-- Modelled from the spec: case-insensitive keyword match at the head of the
list.  `lowerMatch kw l` returns the remainder of `l` after a segment whose
lower-casing is exactly `kw`, and `none` when `l` does not start with such a
segment.  The keyword is given already lower-cased. -/
def lowerMatch : List Char → List Char → Option (List Char)
  | [], l => some l
  | _ :: _, [] => none
  | k :: ks, c :: cs => if c.toLower = k then lowerMatch ks cs else none

/-- Modelled from the spec: the character right after a keyword occurrence must
not be an identifier character (end of input is a boundary). -/
def boundaryAfter : List Char → Bool
  | [] => true
  | c :: _ => !(isIdentChar c)

/-- Modelled from the spec: `l` begins with keyword `kw` (case-insensitively)
followed by a word boundary. -/
def startsKw (kw l : List Char) : Bool :=
  match lowerMatch kw l with
  | some rest => boundaryAfter rest
  | none => false

/-- Modelled from the spec: linear scan for an occurrence of keyword `kw` at a
word boundary anywhere in `l`.  The flag records whether the character just
before the current position is a boundary (`true` at the start of the text). -/
def scanKw (kw : List Char) : Bool → List Char → Bool
  | _, [] => false
  | pOk, c :: cs =>
    (pOk && startsKw kw (c :: cs)) || scanKw kw (!isIdentChar c) cs

/-- The keyword `select`, lower-cased. -/
def selectKw : List Char := ['s', 'e', 'l', 'e', 'c', 't']

/-- The keyword `returning`, lower-cased. -/
def returningKw : List Char := ['r', 'e', 't', 'u', 'r', 'n', 'i', 'n', 'g']

/-- Modelled from the spec: decide whether a statement goes through the
row-returning path.  True when, after skipping leading whitespace, the text
begins with `SELECT` at a word boundary, or contains `RETURNING` at a word
boundary anywhere in the remaining text (`should_use_query` of the native
module; its unit tests are `src/native/ecto_libsql/src/tests.rs`). -/
def shouldUseQueryCore (l : List Char) : Bool :=
  startsKw selectKw (skipWs l) || scanKw returningKw true (skipWs l)

/-- `should_use_query` on strings. -/
def should_use_query (s : String) : Bool :=
  shouldUseQueryCore s.data

/-! ## Declarative characterization used to state C1 -/

/-- The word-boundary condition to the left of an occurrence: either there is
no preceding text and the flag `p` is set, or the last preceding character is
not an identifier character. -/
def boundaryBeforeP (p : Bool) (pre : List Char) : Prop :=
  match pre.getLast? with
  | none => p = true
  | some c => isIdentChar c = false

/-- Declaratively: `l` starts with a (case-insensitive) copy of `kw` followed
by a word boundary. -/
def BeginsWithKw (kw l : List Char) : Prop :=
  ∃ mid post, l = mid ++ post ∧ mid.map Char.toLower = kw ∧
    boundaryAfter post = true

/-- Declaratively: somewhere in `l` a (case-insensitive) copy of `kw` occurs,
delimited by word boundaries on both sides. -/
def OccursKw (kw l : List Char) : Prop :=
  ∃ pre mid post, l = pre ++ mid ++ post ∧ mid.map Char.toLower = kw ∧
    boundaryBeforeP true pre ∧ boundaryAfter post = true

/-! ## Scanner / declarative equivalence -/

theorem lowerMatch_eq_some (kw : List Char) :
    ∀ l rest, lowerMatch kw l = some rest ↔
      ∃ mid, l = mid ++ rest ∧ mid.map Char.toLower = kw := by
  induction kw with
  | nil =>
    intro l rest
    simp only [lowerMatch, Option.some_inj]
    constructor
    · rintro rfl
      exact ⟨[], rfl, rfl⟩
    · rintro ⟨mid, rfl, hmid⟩
      have : mid = [] := by
        cases mid with
        | nil => rfl
        | cons a as => simp at hmid
      subst this
      rfl
  | cons k ks ih =>
    intro l rest
    cases l with
    | nil =>
      simp only [lowerMatch]
      constructor
      · intro h
        exact absurd h (by simp)
      · rintro ⟨mid, hl, hmid⟩
        have : mid = [] := by
          cases mid with
          | nil => rfl
          | cons a as => simp at hl
        subst this
        simp at hmid
    | cons c cs =>
      simp only [lowerMatch]
      by_cases hc : c.toLower = k
      · rw [if_pos hc, ih]
        constructor
        · rintro ⟨mid, rfl, hmid⟩
          exact ⟨c :: mid, rfl, by simp [hmid, hc]⟩
        · rintro ⟨mid, hl, hmid⟩
          cases mid with
          | nil => simp at hmid
          | cons a as =>
            simp only [List.cons_append, List.cons.injEq] at hl
            obtain ⟨rfl, rfl⟩ := hl
            simp only [List.map, List.cons.injEq] at hmid
            exact ⟨as, rfl, hmid.2⟩
      · rw [if_neg hc]
        constructor
        · intro h
          exact absurd h (by simp)
        · rintro ⟨mid, hl, hmid⟩
          cases mid with
          | nil => simp at hmid
          | cons a as =>
            simp only [List.cons_append, List.cons.injEq] at hl
            simp only [List.map, List.cons.injEq] at hmid
            exact absurd (hl.1 ▸ hmid.1) hc

theorem startsKw_iff (kw l : List Char) :
    startsKw kw l = true ↔ BeginsWithKw kw l := by
  unfold startsKw BeginsWithKw
  cases h : lowerMatch kw l with
  | none =>
    simp only []
    constructor
    · intro hf
      exact absurd hf (by simp)
    · rintro ⟨mid, post, rfl, hmid, hb⟩
      have : lowerMatch kw (mid ++ post) = some post :=
        (lowerMatch_eq_some kw (mid ++ post) post).mpr ⟨mid, rfl, hmid⟩
      rw [h] at this
      exact absurd this (by simp)
  | some rest =>
    simp only []
    constructor
    · intro hb
      obtain ⟨mid, rfl, hmid⟩ := (lowerMatch_eq_some kw l rest).mp h
      exact ⟨mid, rest, rfl, hmid, hb⟩
    · rintro ⟨mid, post, hl, hmid, hb⟩
      have : lowerMatch kw l = some post :=
        (lowerMatch_eq_some kw l post).mpr ⟨mid, hl, hmid⟩
      rw [h] at this
      injection this with h'
      rwa [h']

theorem boundaryBeforeP_cons (p : Bool) (c : Char) (pre : List Char) :
    boundaryBeforeP p (c :: pre) ↔ boundaryBeforeP (!isIdentChar c) pre := by
  cases pre with
  | nil =>
    simp only [boundaryBeforeP, List.getLast?_singleton, List.getLast?_eq_none_iff]
    constructor
    · intro h
      simp [h]
    · intro h
      simp only [Bool.not_eq_true'] at h
      exact h
  | cons d pre' =>
    cases h : (d :: pre').getLast? with
    | none => simp at h
    | some e => simp [boundaryBeforeP, List.getLast?_cons_cons, h]

theorem scanKw_iff (kw : List Char) (hkw : kw ≠ []) :
    ∀ (l : List Char) (p : Bool),
      scanKw kw p l = true ↔
        ∃ pre mid post, l = pre ++ mid ++ post ∧ mid.map Char.toLower = kw ∧
          boundaryBeforeP p pre ∧ boundaryAfter post = true := by
  intro l
  induction l with
  | nil =>
    intro p
    constructor
    · intro h
      exact absurd h (by simp [scanKw])
    · rintro ⟨pre, mid, post, hl, hmid, -, -⟩
      exfalso
      have h0 : pre ++ (mid ++ post) = [] := by simpa using hl.symm
      obtain ⟨-, h2⟩ := List.append_eq_nil.mp h0
      obtain ⟨hm, -⟩ := List.append_eq_nil.mp h2
      subst hm
      simp only [List.map_nil] at hmid
      exact hkw hmid.symm
  | cons c cs ih =>
    intro p
    simp only [scanKw, Bool.or_eq_true, Bool.and_eq_true, startsKw_iff, ih]
    constructor
    · rintro (⟨hp, mid, post, hl, hmid, hb⟩ | ⟨pre, mid, post, hl, hmid, hbb, hb⟩)
      · refine ⟨[], mid, post, by simp [hl], hmid, ?_, hb⟩
        simpa [boundaryBeforeP] using hp
      · refine ⟨c :: pre, mid, post, by simp [hl], hmid, ?_, hb⟩
        rw [boundaryBeforeP_cons]
        exact hbb
    · rintro ⟨pre, mid, post, hl, hmid, hbb, hb⟩
      cases pre with
      | nil =>
        left
        have hp : p = true := hbb
        simp only [List.nil_append] at hl
        exact ⟨hp, mid, post, hl, hmid, hb⟩
      | cons d pre' =>
        right
        simp only [List.cons_append, List.cons.injEq] at hl
        obtain ⟨rfl, hcs⟩ := hl
        rw [boundaryBeforeP_cons] at hbb
        exact ⟨pre', mid, post, hcs, hmid, hbb, hb⟩

/-- C1: `should_use_query s` is true exactly when, after skipping leading
whitespace, the text begins with `SELECT` at a word boundary or contains
`RETURNING` at a word boundary (case-insensitively) anywhere in the remaining
text; in particular it is false for the empty string, whitespace-only strings,
too-short strings like `"S"`, and the non-boundary matches `SELECTED` and
`NORETURNING`. -/
theorem C1_should_use_query_characterization :
    (∀ s : String, should_use_query s = true ↔
       (BeginsWithKw selectKw (skipWs s.data) ∨
        OccursKw returningKw (skipWs s.data)))
    ∧ should_use_query "" = false
    ∧ should_use_query "   " = false
    ∧ should_use_query "S" = false
    ∧ should_use_query "SELECTED FROM users" = false
    ∧ should_use_query "INSERT INTO users VALUES (1) NORETURNING id" = false := by
  refine ⟨?_, by rfl, by decide, by rfl, by decide, by rfl⟩
  intro s
  unfold should_use_query shouldUseQueryCore
  rw [Bool.or_eq_true, startsKw_iff,
    scanKw_iff returningKw (by simp [returningKw]) (skipWs s.data) true]
  rfl

/-! ## Character-level facts about `Char.toLower` -/

theorem char_eq_iff (c d : Char) : c = d ↔ c.toNat = d.toNat := by
  constructor
  · rintro rfl
    rfl
  · intro h
    apply Char.eq_of_val_eq
    apply UInt32.eq_of_toBitVec_eq
    apply BitVec.eq_of_toNat_eq
    exact h

theorem toNat_ofNat_valid {n : Nat} (h : Nat.isValidChar n) :
    (Char.ofNat n).toNat = n := by
  rw [Char.ofNat, dif_pos h]
  simp [Char.ofNatAux, Char.toNat, UInt32.toNat]

theorem toLower_toNat (c : Char) :
    (Char.toLower c).toNat =
      if c.toNat ≥ 65 ∧ c.toNat ≤ 90 then c.toNat + 32 else c.toNat := by
  unfold Char.toLower
  by_cases h : c.toNat ≥ 65 ∧ c.toNat ≤ 90
  · rw [if_pos h, if_pos h, toNat_ofNat_valid (Or.inl (by omega))]
  · rw [if_neg h, if_neg h]

theorem isSqlWs_iff (c : Char) :
    isSqlWs c = true ↔
      (c.toNat = 32 ∨ c.toNat = 9 ∨ c.toNat = 10 ∨ c.toNat = 13) := by
  unfold isSqlWs
  simp only [Bool.or_eq_true, decide_eq_true_eq]
  rw [char_eq_iff c ' ', char_eq_iff c '\t', char_eq_iff c '\n',
    char_eq_iff c '\r']
  have h1 : (' ' : Char).toNat = 32 := by decide
  have h2 : ('\t' : Char).toNat = 9 := by decide
  have h3 : ('\n' : Char).toNat = 10 := by decide
  have h4 : ('\r' : Char).toNat = 13 := by decide
  rw [h1, h2, h3, h4]
  tauto

theorem isSqlWs_toLower (c : Char) : isSqlWs (Char.toLower c) = isSqlWs c := by
  rw [Bool.eq_iff_iff, isSqlWs_iff, isSqlWs_iff, toLower_toNat]
  by_cases h : c.toNat ≥ 65 ∧ c.toNat ≤ 90
  · rw [if_pos h]
    omega
  · rw [if_neg h]

theorem toLower_idem (c : Char) :
    Char.toLower (Char.toLower c) = Char.toLower c := by
  rw [char_eq_iff, toLower_toNat, toLower_toNat]
  split_ifs <;> omega

/-! ## `detect_query_type` -/

/-- The advisory classification of a statement (`QueryType` of the native
module). -/
inductive QueryType
  | Select
  | Insert
  | Update
  | Delete
  | Create
  | Drop
  | Alter
  | Begin
  | Commit
  | Rollback
  | Other
  deriving DecidableEq

/-- Modelled from the spec: the keyword set of `detect_query_type`, in match
order, each keyword lower-cased. -/
def keywordTable : List (List Char × QueryType) :=
  [("select".data, QueryType.Select), ("insert".data, QueryType.Insert),
   ("update".data, QueryType.Update), ("delete".data, QueryType.Delete),
   ("create".data, QueryType.Create), ("drop".data, QueryType.Drop),
   ("alter".data, QueryType.Alter), ("begin".data, QueryType.Begin),
   ("commit".data, QueryType.Commit), ("rollback".data, QueryType.Rollback)]

/-- Modelled from the spec: the leading whitespace-delimited token of the
trimmed text, lower-cased. -/
def tokenOf (r : List Char) : List Char :=
  (r.takeWhile (fun c => !isSqlWs c)).map Char.toLower

/-- Modelled from the spec: first keyword of the table equal to the token
wins; no match yields `Other`. -/
def lookupKw : List (List Char × QueryType) → List Char → QueryType
  | [], _ => QueryType.Other
  | kv :: rest, tok => if kv.1 = tok then kv.2 else lookupKw rest tok

/-- Modelled from the spec: classification of already-trimmed text. -/
def detectFromTrimmed (r : List Char) : QueryType :=
  lookupKw keywordTable (tokenOf r)

/-- Modelled from the spec: `detect_query_type` on character lists — skip
leading whitespace, then classify by the leading token (unit tests in
`src/native/ecto_libsql/src/tests.rs`). -/
def detectCore (l : List Char) : QueryType :=
  detectFromTrimmed (skipWs l)

/-- `detect_query_type` on strings. -/
def detect_query_type (s : String) : QueryType :=
  detectCore s.data

theorem skipWs_append_of_ws (w l : List Char)
    (hw : ∀ c ∈ w, isSqlWs c = true) : skipWs (w ++ l) = skipWs l := by
  induction w with
  | nil => rfl
  | cons c w' ih =>
    simp only [List.cons_append, skipWs]
    rw [if_pos (hw c (by simp))]
    exact ih (fun d hd => hw d (by simp [hd]))

theorem skipWs_map_toLower (l : List Char) :
    skipWs (l.map Char.toLower) = (skipWs l).map Char.toLower := by
  induction l with
  | nil => rfl
  | cons c cs ih =>
    simp only [List.map_cons, skipWs, isSqlWs_toLower]
    split_ifs with h
    · exact ih
    · simp

theorem tokenOf_map_toLower (r : List Char) :
    tokenOf (r.map Char.toLower) = tokenOf r := by
  unfold tokenOf
  have hp : ((fun c => !isSqlWs c) ∘ Char.toLower) = (fun c => !isSqlWs c) := by
    funext c
    simp [Function.comp, isSqlWs_toLower]
  rw [List.takeWhile_map, hp, List.map_map]
  have hl : (Char.toLower ∘ Char.toLower) = Char.toLower := by
    funext c
    simp [Function.comp, toLower_idem]
  rw [hl]

theorem skipWs_eq_nil_of_ws (l : List Char)
    (hl : ∀ c ∈ l, isSqlWs c = true) : skipWs l = [] := by
  have h := skipWs_append_of_ws l [] hl
  simpa using h

/-- C2: `detect_query_type` skips leading whitespace, matches the leading
token case-insensitively against the keyword table with first match winning,
returns `Other` when nothing matches (in particular on empty or
whitespace-only input), and is therefore invariant under prepending
whitespace and under lower-casing the input. -/
theorem C2_detect_query_type_algorithm :
    (∀ w s : List Char, (∀ c ∈ w, isSqlWs c = true) →
       detectCore (w ++ s) = detectCore s)
    ∧ (∀ l : List Char, detectCore (l.map Char.toLower) = detectCore l)
    ∧ (∀ l : List Char, (∀ c ∈ l, isSqlWs c = true) →
       detectCore l = QueryType.Other)
    ∧ (∀ l : List Char, detectCore l = lookupKw keywordTable (tokenOf (skipWs l)))
    ∧ detect_query_type "SELECT * FROM users" = QueryType.Select
    ∧ detect_query_type "  SELECT id FROM posts" = QueryType.Select
    ∧ detect_query_type "select * from users" = QueryType.Select
    ∧ detect_query_type "\t\tINSERT INTO users" = QueryType.Insert
    ∧ detect_query_type "UPDATE users SET x = 1" = QueryType.Update
    ∧ detect_query_type "DELETE FROM posts" = QueryType.Delete
    ∧ detect_query_type "CREATE TABLE users (id INTEGER)" = QueryType.Create
    ∧ detect_query_type "DROP TABLE users" = QueryType.Drop
    ∧ detect_query_type "ALTER TABLE users ADD COLUMN email TEXT" = QueryType.Alter
    ∧ detect_query_type "BEGIN TRANSACTION" = QueryType.Begin
    ∧ detect_query_type "COMMIT" = QueryType.Commit
    ∧ detect_query_type "ROLLBACK" = QueryType.Rollback
    ∧ detect_query_type "PRAGMA table_info(users)" = QueryType.Other
    ∧ detect_query_type "EXPLAIN SELECT * FROM users" = QueryType.Other
    ∧ detect_query_type "" = QueryType.Other
    ∧ detect_query_type "   \n\t  SELECT * FROM users" = QueryType.Select := by
  refine ⟨?_, ?_, ?_, ?_, by rfl, by decide, by rfl, by decide, by rfl,
    by decide, by rfl, by decide, by rfl, by decide, by rfl, by decide,
    by rfl, by decide, by rfl, by decide⟩
  · intro w s hw
    unfold detectCore
    rw [skipWs_append_of_ws w s hw]
  · intro l
    unfold detectCore
    rw [skipWs_map_toLower]
    unfold detectFromTrimmed
    rw [tokenOf_map_toLower]
  · intro l hl
    unfold detectCore
    rw [skipWs_eq_nil_of_ws l hl]
    decide
  · intro l
    rfl

/-- Witness for C2: the whitespace-invariance and whitespace-only conjuncts
at concrete inputs. -/
theorem C2_witness :
    detectCore ([' ', '\t'] ++ "SELECT 1".data) = detectCore "SELECT 1".data
    ∧ detectCore " \n ".data = QueryType.Other :=
  ⟨C2_detect_query_type_algorithm.1 [' ', '\t'] "SELECT 1".data (by decide),
   C2_detect_query_type_algorithm.2.2.1 " \n ".data (by decide)⟩

/-- C3: a leading comment marker suppresses `SELECT` detection (the
classifier does not skip into the statement), so the result is decided by
`RETURNING` containment alone; comments embedded after the start of the
statement do not suppress keyword detection. -/
theorem C3_leading_comment_not_skipped :
    (∀ s : String,
       ((skipWs s.data).head? = some '-' ∨ (skipWs s.data).head? = some '/') →
       should_use_query s = scanKw returningKw true (skipWs s.data))
    ∧ should_use_query "-- Comment\nSELECT * FROM users" = false
    ∧ should_use_query "INSERT INTO users VALUES (1) /* comment */ RETURNING id" = true
    ∧ should_use_query "SELECT /* comment */ * FROM users" = true := by
  refine ⟨?_, by rfl, by decide, by rfl⟩
  intro s h
  unfold should_use_query shouldUseQueryCore
  cases hsk : skipWs s.data with
  | nil =>
    rw [hsk] at h
    simp at h
  | cons c rest =>
    rw [hsk] at h
    simp only [List.head?, Option.some_inj] at h
    have hs : startsKw selectKw (c :: rest) = false := by
      rcases h with rfl | rfl <;> rfl
    rw [hs, Bool.false_or]

/-- Witness for C3: the leading-comment conjunct applied at the concrete
input from `tests.rs`. -/
theorem C3_witness :
    should_use_query "-- c\nSELECT * FROM t"
      = scanKw returningKw true (skipWs "-- c\nSELECT * FROM t".data) :=
  C3_leading_comment_not_skipped.1 "-- c\nSELECT * FROM t" (by decide)

/-! ## Registries and the transaction state machine -/

/-- A registry is a finite map from string handles to entries
(`HashMap<String, _>` in `constants.rs`), embedded as an association list. -/
abbrev Registry (α : Type) := List (String × α)

def regLookup {α : Type} : Registry α → String → Option α
  | [], _ => none
  | (k, e) :: rest, h => if k = h then some e else regLookup rest h

def regRemove {α : Type} : Registry α → String → Registry α
  | [], _ => []
  | (k, e) :: rest, h =>
    if k = h then regRemove rest h else (k, e) :: regRemove rest h

/-- Registry-level error: the handle is absent. -/
inductive RegError
  | NotFound
  deriving DecidableEq

/-- Modelled from the spec: `with_entry` looks the handle up and runs the
operation on the entry, returning `NotFound` when the handle is absent. -/
def withEntry {α β : Type} (reg : Registry α) (h : String) (f : α → β) :
    Except RegError β :=
  match regLookup reg h with
  | none => Except.error RegError.NotFound
  | some e => Except.ok (f e)

theorem regLookup_remove {α : Type} (reg : Registry α) (h : String) :
    regLookup (regRemove reg h) h = none := by
  induction reg with
  | nil => rfl
  | cons kv rest ih =>
    obtain ⟨k, e⟩ := kv
    by_cases hk : k = h
    · simp only [regRemove, if_pos hk]
      exact ih
    · simp only [regRemove, if_neg hk, regLookup, if_neg hk]
      exact ih

/-- Transaction lifecycle state (spec section 3). -/
inductive TxnState
  | Open
  | Committed
  | RolledBack
  deriving DecidableEq

/-- Isolation behavior of a transaction (the `deferred`, `immediate`,
`exclusive` atoms of `constants.rs`). -/
inductive IsolationMode
  | deferred
  | immediate
  | exclusive
  deriving DecidableEq

/-- A `TXN_REGISTRY` value (`TransactionEntry` of the native module, modelled
from the spec: parent connection handle, isolation behavior, lifecycle
state). -/
structure TransactionEntry where
  connId : String
  behavior : IsolationMode
  state : TxnState
  deriving DecidableEq

/-- Transaction-level errors of the spec's error taxonomy. -/
inductive TxnError
  | NotFound
  | InvalidState
  | EngineError
  deriving DecidableEq

abbrev TxnRegistry := Registry TransactionEntry

/-- Modelled from the spec: `begin` inserts a fresh entry in state `Open`
under the allocated handle. -/
def txnBegin (reg : TxnRegistry) (h conn : String) (iso : IsolationMode) :
    TxnRegistry :=
  (h, ⟨conn, iso, TxnState.Open⟩) :: reg

/-- Result of a commit/rollback call: the caller-visible result, the updated
registry, whether the engine primitive was reached, and the state the entry
transitioned to (when it did). -/
structure TxnOpResult where
  result : Except TxnError Unit
  registry : TxnRegistry
  engineInvoked : Bool
  transitionedTo : Option TxnState

/-- Modelled from the spec: commit/rollback look the transaction up, require
state `Open` (otherwise the engine is not reached), invoke the engine
primitive, transition the state to `target`, and remove the entry from the
registry even when the engine call fails. -/
def txnFinalize (target : TxnState) (engineOk : Bool) (reg : TxnRegistry)
    (h : String) : TxnOpResult :=
  match regLookup reg h with
  | none => ⟨Except.error TxnError.NotFound, reg, false, none⟩
  | some e =>
    if e.state = TxnState.Open then
      ⟨if engineOk then Except.ok () else Except.error TxnError.EngineError,
        regRemove reg h, true, some target⟩
    else
      ⟨Except.error TxnError.InvalidState, reg, false, none⟩

/-- Modelled from the spec: any other operation on a transaction handle
(execute/query) reaches the engine only when the entry exists and is `Open`;
the second component records whether the engine was reached. -/
def txnUse (reg : TxnRegistry) (h : String) : Except TxnError Unit × Bool :=
  match regLookup reg h with
  | none => (Except.error TxnError.NotFound, false)
  | some e =>
    if e.state = TxnState.Open then (Except.ok (), true)
    else (Except.error TxnError.InvalidState, false)

/-- C4: `begin` creates the entry in state `Open`; commit/rollback on an
`Open` entry reach the engine, transition the state exactly once, and remove
the entry even when the engine call fails; a missing or non-`Open` entry
yields `NotFound`/`InvalidState` without reaching the engine; consequently
any operation after a commit/rollback — including a second commit — fails
with `NotFound` and never reaches the engine. -/
theorem C4_transaction_lifecycle :
    (∀ (reg : TxnRegistry) (h conn : String) (iso : IsolationMode),
       regLookup (txnBegin reg h conn iso) h =
         some ⟨conn, iso, TxnState.Open⟩)
    ∧ (∀ (target : TxnState) (ok : Bool) (reg : TxnRegistry) (h : String)
         (e : TransactionEntry), regLookup reg h = some e →
         e.state = TxnState.Open →
         (txnFinalize target ok reg h).engineInvoked = true
         ∧ (txnFinalize target ok reg h).transitionedTo = some target
         ∧ regLookup (txnFinalize target ok reg h).registry h = none)
    ∧ (∀ (target : TxnState) (ok : Bool) (reg : TxnRegistry) (h : String),
         regLookup reg h = none →
         (txnFinalize target ok reg h).result = Except.error TxnError.NotFound
         ∧ (txnFinalize target ok reg h).engineInvoked = false)
    ∧ (∀ (reg : TxnRegistry) (h : String) (e : TransactionEntry),
         regLookup reg h = some e → e.state ≠ TxnState.Open →
         (txnUse reg h).1 = Except.error TxnError.InvalidState
         ∧ (txnUse reg h).2 = false)
    ∧ (∀ (target target' : TxnState) (ok ok' : Bool) (reg : TxnRegistry)
         (h : String) (e : TransactionEntry), regLookup reg h = some e →
         e.state = TxnState.Open →
         (txnFinalize target' ok' (txnFinalize target ok reg h).registry h).result
             = Except.error TxnError.NotFound
         ∧ (txnFinalize target' ok' (txnFinalize target ok reg h).registry h).engineInvoked
             = false
         ∧ (txnUse (txnFinalize target ok reg h).registry h).1
             = Except.error TxnError.NotFound
         ∧ (txnUse (txnFinalize target ok reg h).registry h).2 = false) := by
  have hfin : ∀ (target : TxnState) (ok : Bool) (reg : TxnRegistry)
      (h : String) (e : TransactionEntry), regLookup reg h = some e →
      e.state = TxnState.Open →
      txnFinalize target ok reg h =
        ⟨if ok then Except.ok () else Except.error TxnError.EngineError,
          regRemove reg h, true, some target⟩ := by
    intro target ok reg h e he hopen
    unfold txnFinalize
    rw [he]
    simp [hopen]
  refine ⟨?_, ?_, ?_, ?_, ?_⟩
  · intro reg h conn iso
    simp [txnBegin, regLookup]
  · intro target ok reg h e he hopen
    rw [hfin target ok reg h e he hopen]
    exact ⟨rfl, rfl, regLookup_remove reg h⟩
  · intro target ok reg h he
    unfold txnFinalize
    rw [he]
    exact ⟨rfl, rfl⟩
  · intro reg h e he hstate
    unfold txnUse
    rw [he]
    exact ⟨by simp [hstate], by simp [hstate]⟩
  · intro target target' ok ok' reg h e he hopen
    rw [hfin target ok reg h e he hopen]
    have hnone : regLookup (regRemove reg h) h = none := regLookup_remove reg h
    constructor
    · show (txnFinalize target' ok' (regRemove reg h) h).result = _
      unfold txnFinalize
      rw [hnone]
    constructor
    · show (txnFinalize target' ok' (regRemove reg h) h).engineInvoked = _
      unfold txnFinalize
      rw [hnone]
    constructor
    · show (txnUse (regRemove reg h) h).1 = _
      unfold txnUse
      rw [hnone]
    · show (txnUse (regRemove reg h) h).2 = _
      unfold txnUse
      rw [hnone]

/-- Witness for C4: a transaction begun on the empty registry, committed with
a failing engine call, is removed, and a second commit fails with `NotFound`
without reaching the engine. -/
theorem C4_witness :
    regLookup
        (txnFinalize TxnState.Committed false
          (txnBegin [] "t1" "c1" IsolationMode.deferred) "t1").registry "t1"
      = none
    ∧ (txnFinalize TxnState.Committed true
          (txnFinalize TxnState.Committed false
            (txnBegin [] "t1" "c1" IsolationMode.deferred) "t1").registry
          "t1").result = Except.error TxnError.NotFound :=
  ⟨(C4_transaction_lifecycle.2.1 TxnState.Committed false
      (txnBegin [] "t1" "c1" IsolationMode.deferred) "t1"
      ⟨"c1", IsolationMode.deferred, TxnState.Open⟩ (by decide) rfl).2.2,
   (C4_transaction_lifecycle.2.2.2.2 TxnState.Committed TxnState.Committed
      false true (txnBegin [] "t1" "c1" IsolationMode.deferred) "t1"
      ⟨"c1", IsolationMode.deferred, TxnState.Open⟩ (by decide) rfl).1⟩

/-! ## Initial registry state (C8) -/

/-- Connection mode (the `local`, `remote_primary`, `remote_replica` atoms of
`constants.rs`). -/
inductive ConnMode
  | localMode
  | remotePrimary
  | remoteReplica
  deriving DecidableEq

/-- A `CONNECTION_REGISTRY` value (`LibSQLConn` of the native module,
modelled from the spec: mode and optional auto-sync flag). -/
structure LibSQLConn where
  mode : ConnMode
  syncEnabled : Bool
  deriving DecidableEq

/-- A `STMT_REGISTRY` value: owning connection handle plus the cached
prepared statement (the statement object itself is external engine state,
carried as an abstract tag). -/
structure StmtEntry where
  connId : String
  deriving DecidableEq

/-- A `CURSOR_REGISTRY` value (`CursorData` of the native module, modelled
from the spec: exhaustion flag of the forward-only stream). -/
structure CursorData where
  exhausted : Bool
  deriving DecidableEq

/-- `CONNECTION_REGISTRY` starts as `HashMap::new()`. -/
def initialConnectionRegistry : Registry LibSQLConn := []

/-- `TXN_REGISTRY` starts as `HashMap::new()`. -/
def initialTxnRegistry : TxnRegistry := []

/-- `STMT_REGISTRY` starts as `HashMap::new()`. -/
def initialStmtRegistry : Registry StmtEntry := []

/-- `CURSOR_REGISTRY` starts as `HashMap::new()`. -/
def initialCursorRegistry : Registry CursorData := []

/-- C8: all four registries start empty, so before any insert every lookup
through `with_entry` fails with `NotFound`, whatever the handle. -/
theorem C8_registries_initially_empty :
    initialConnectionRegistry = [] ∧ initialTxnRegistry = []
    ∧ initialStmtRegistry = [] ∧ initialCursorRegistry = []
    ∧ (∀ h : String, regLookup initialConnectionRegistry h = none)
    ∧ (∀ h : String, regLookup initialTxnRegistry h = none)
    ∧ (∀ h : String, regLookup initialStmtRegistry h = none)
    ∧ (∀ h : String, regLookup initialCursorRegistry h = none)
    ∧ (∀ (h : String) (f : LibSQLConn → Unit),
        withEntry initialConnectionRegistry h f = Except.error RegError.NotFound)
    ∧ (∀ (h : String) (f : TransactionEntry → Unit),
        withEntry initialTxnRegistry h f = Except.error RegError.NotFound)
    ∧ (∀ (h : String) (f : StmtEntry → Unit),
        withEntry initialStmtRegistry h f = Except.error RegError.NotFound)
    ∧ (∀ (h : String) (f : CursorData → Unit),
        withEntry initialCursorRegistry h f = Except.error RegError.NotFound) :=
  ⟨rfl, rfl, rfl, rfl, fun _ => rfl, fun _ => rfl, fun _ => rfl, fun _ => rfl,
   fun _ _ => rfl, fun _ _ => rfl, fun _ _ => rfl, fun _ _ => rfl⟩

/-! ## The shared Tokio runtime (C9) -/

/-- The runtime object itself is external engine state; the tag only gives it
an identity. -/
structure TokioRuntime where
  id : Nat
  deriving DecidableEq

/-- The lazy cell holding the process-wide runtime: `none` while the cell has
never been forced. -/
structure RuntimeState where
  runtime : Option TokioRuntime
  deriving DecidableEq

/-- What forcing the cell produces: a runtime, or a process panic with a
message (no error value is returned to the caller). -/
inductive ForceOutcome
  | ok (rt : TokioRuntime)
  | panicked (msg : String)
  deriving DecidableEq

/-- `TOKIO_RUNTIME` is `Lazy::new(..)` in `constants.rs`: nothing is
constructed at process start. -/
def initialRuntimeState : RuntimeState := ⟨none⟩

/-- Forcing the lazy cell: on first use the constructor runs, and
`Runtime::new().expect("Failed to create Tokio runtime")` turns a constructor
failure into a panic with exactly that message; afterwards the stored runtime
is returned. -/
def forceTokioRuntime (ctor : Except String TokioRuntime)
    (st : RuntimeState) : ForceOutcome × RuntimeState :=
  match st.runtime with
  | some rt => (ForceOutcome.ok rt, st)
  | none =>
    match ctor with
    | Except.ok rt => (ForceOutcome.ok rt, ⟨some rt⟩)
    | Except.error _ =>
      (ForceOutcome.panicked "Failed to create Tokio runtime", st)

/-- C9: the runtime is lazily initialized — absent in the initial process
state, constructed on the first forcing — and a failed construction panics
with the message `Failed to create Tokio runtime` instead of returning an
error value. -/
theorem C9_tokio_runtime_lazy_panic :
    initialRuntimeState.runtime = none
    ∧ (∀ (e : String) (st : RuntimeState), st.runtime = none →
        (forceTokioRuntime (Except.error e) st).1 =
          ForceOutcome.panicked "Failed to create Tokio runtime")
    ∧ (∀ (rt : TokioRuntime) (st : RuntimeState), st.runtime = none →
        forceTokioRuntime (Except.ok rt) st = (ForceOutcome.ok rt, ⟨some rt⟩))
    ∧ (∀ (ctor : Except String TokioRuntime) (rt : TokioRuntime)
         (st : RuntimeState), st.runtime = some rt →
        forceTokioRuntime ctor st = (ForceOutcome.ok rt, st)) := by
  refine ⟨rfl, ?_, ?_, ?_⟩
  · intro e st hst
    unfold forceTokioRuntime
    rw [hst]
  · intro rt st hst
    unfold forceTokioRuntime
    rw [hst]
  · intro ctor rt st hst
    unfold forceTokioRuntime
    rw [hst]

/-- Witness for C9: forcing the untouched initial state with a failing
constructor panics with the documented message. -/
theorem C9_witness :
    (forceTokioRuntime (Except.error "io error") initialRuntimeState).1 =
      ForceOutcome.panicked "Failed to create Tokio runtime" :=
  C9_tokio_runtime_lazy_panic.2.1 "io error" initialRuntimeState rfl

/-! ## Sync timeout (C7, C10) -/

/-- `DEFAULT_SYNC_TIMEOUT_SECS` of `constants.rs` (`u64`, modelled as a
natural number of seconds). -/
def DEFAULT_SYNC_TIMEOUT_SECS : Nat := 30

/-- Modelled from the spec: the per-call timeout of `sync`, defaulting to
`DEFAULT_SYNC_TIMEOUT_SECS` when the caller does not override it. -/
def effectiveSyncTimeout (override : Option Nat) : Nat :=
  override.getD DEFAULT_SYNC_TIMEOUT_SECS

/-- The operations of the external interface (spec section 6). -/
inductive OpKind
  | opOpen
  | opClose
  | opExecute
  | opQuery
  | opPrepare
  | opBegin
  | opCommit
  | opRollback
  | opCursorNext
  | opSync
  deriving DecidableEq

/-- Modelled from the spec: only the remote-sync primitive is bounded by a
timeout at this layer; every other operation runs unbounded. -/
def opTimeout (k : OpKind) (override : Option Nat) : Option Nat :=
  match k with
  | OpKind.opSync => some (effectiveSyncTimeout override)
  | _ => none

/-- C7: the sync timeout defaults to exactly 30 seconds, a per-call override
replaces it, and the timeout bounds only the sync operation — every other
operation is unbounded at this layer. -/
theorem C7_sync_timeout_default_and_scope :
    DEFAULT_SYNC_TIMEOUT_SECS = 30
    ∧ effectiveSyncTimeout none = 30
    ∧ (∀ t : Nat, effectiveSyncTimeout (some t) = t)
    ∧ (∀ o : Option Nat, opTimeout OpKind.opSync o = some (effectiveSyncTimeout o))
    ∧ (∀ (k : OpKind) (o : Option Nat), k ≠ OpKind.opSync → opTimeout k o = none) := by
  refine ⟨rfl, rfl, fun _ => rfl, fun _ => rfl, ?_⟩
  intro k o hk
  cases k <;> first | rfl | exact absurd rfl hk

/-- Witness for C7: `execute` carries no timeout. -/
theorem C7_witness : opTimeout OpKind.opExecute (some 5) = none :=
  C7_sync_timeout_default_and_scope.2.2.2.2 OpKind.opExecute (some 5) (by decide)

/-- C10: the timeout is a `u64` count of whole seconds — the effective value
always lies in `[0, 2^64)`, is non-negative as an integer, and is a whole
number of seconds as a rational; negative or fractional timeouts are not
representable. -/
theorem C10_sync_timeout_representation :
    (∀ o : Option Nat, (∀ t ∈ o, t < 2 ^ 64) →
       effectiveSyncTimeout o < 2 ^ 64)
    ∧ (∀ o : Option Nat, (0 : ℤ) ≤ (effectiveSyncTimeout o : ℤ))
    ∧ (∀ o : Option Nat, ∃ n : Nat, (effectiveSyncTimeout o : ℚ) = (n : ℚ)) := by
  refine ⟨?_, ?_, ?_⟩
  · intro o ho
    cases o with
    | none =>
      show DEFAULT_SYNC_TIMEOUT_SECS < 2 ^ 64
      norm_num [DEFAULT_SYNC_TIMEOUT_SECS]
    | some t =>
      exact ho t rfl
  · intro o
    exact Int.natCast_nonneg _
  · intro o
    exact ⟨effectiveSyncTimeout o, rfl⟩

/-- Witness for C10: the capped-range conjunct at a concrete override. -/
theorem C10_witness : effectiveSyncTimeout (some 5) < 2 ^ 64 :=
  C10_sync_timeout_representation.1 (some 5) (by simp)

end EctoLibSql
